import Mathlib

/-!
Verification development for the Personal Finance App repository.

The development shallowly embeds the transaction data model, the server
request handlers (transaction creation, listing, receipt processing, and
the analytics endpoint) and the client-side local-fallback analytics
computation, and proves the documented properties about them.

Modelling conventions:
* Transaction amounts are modelled as rational numbers, reading the
  documented properties under exact arithmetic as they are stated.
* JavaScript objects built by `reduce` folds are modelled as association
  lists that preserve key insertion order, matching the enumeration order
  of string-keyed JavaScript objects.
* JavaScript truthiness tests on request fields are modelled explicitly:
  an absent field, the empty string, the number `0`, `null` and `false`
  are exactly the falsy values.
* `parseFloat` is modelled as an abstract function `pf` into `Option Rat`
  (with `none` standing for `NaN`), universally quantified in the
  theorems; `JSON.parse` of the classifier text is likewise an abstract
  `pj` into `Option ReceiptData`.
-/

/-- Transaction type tag: the string field `type` is always one of
`income` or `expense` in the data model. -/
inductive TxType where
  | income
  | expense
deriving DecidableEq

/-- The value stored in the record store under a `transaction:` key, as
assembled by the POST handlers: all fields of a transaction except the
id (which lives in the key). `vendor` is `none` when the stored object
has no vendor field (manual creation). -/
structure StoredTx where
  type : TxType
  amount : Rat
  category : String
  description : String
  date : String
  createdAt : String
  source : String
  vendor : Option String
deriving DecidableEq

/-- A full transaction as seen by clients: the stored fields together
with the id recovered from the store key. -/
structure Transaction extends StoredTx where
  id : String
deriving DecidableEq

/-- Attach an id to a stored value, as the GET handler does when it
merges the stripped key into the stored object. -/
def withId (i : String) (v : StoredTx) : Transaction :=
  { toStoredTx := v, id := i }

/-- One month bucket of the `monthlyData` series. -/
structure MonthEntry where
  month : String
  income : Rat
  expense : Rat
deriving DecidableEq

/-- The analytics payload: totals, balance, per-category expense map
(association list in key insertion order) and the sorted monthly
series. -/
structure Analytics where
  totalIncome : Rat
  totalExpense : Rat
  balance : Rat
  expensesByCategory : List (String × Rat)
  monthlyData : List MonthEntry
deriving DecidableEq

/-! Server-side analytics computation, embedded from the GET analytics
handler. Each definition mirrors one of the handler constants. -/

/-- Server total income: `transactionData.filter(type === income)
.reduce((sum, t) => sum + t.amount, 0)`. -/
def serverTotalIncome (l : List StoredTx) : Rat :=
  (l.filter (fun t => t.type == TxType.income)).foldl (fun sum t => sum + t.amount) 0

/-- Server total expense, same shape with the expense filter. -/
def serverTotalExpense (l : List StoredTx) : Rat :=
  (l.filter (fun t => t.type == TxType.expense)).foldl (fun sum t => sum + t.amount) 0

/-- One step of the category-breakdown reduce:
`acc[t.category] = (acc[t.category] || 0) + t.amount`. A present key is
updated in place, an absent key is appended with initial value being the
amount (the `|| 0` default plus the amount). -/
def serverCategoryStep (acc : List (String × Rat)) (t : StoredTx) : List (String × Rat) :=
  if acc.any (fun p => p.1 == t.category) then
    acc.map (fun p => if p.1 == t.category then (p.1, p.2 + t.amount) else p)
  else
    acc ++ [(t.category, t.amount)]

/-- Server category breakdown over expense transactions only. -/
def serverExpensesByCategory (l : List StoredTx) : List (String × Rat) :=
  (l.filter (fun t => t.type == TxType.expense)).foldl serverCategoryStep []

/-- Bump the income or expense field of a month bucket by the amount of
a transaction: `acc[month][t.type] += t.amount`. -/
def serverBump (e : MonthEntry) (t : StoredTx) : MonthEntry :=
  match t.type with
  | TxType.income => { e with income := e.income + t.amount }
  | TxType.expense => { e with expense := e.expense + t.amount }

/-- The `YYYY-MM` bucket key of a date string:
`t.date.substring(0, 7)`, the first seven characters. Marked
irreducible so that unification never unfolds the underlying byte-level
string machinery on symbolic dates; its defining equation is still
available by name. -/
@[irreducible] def monthOf (d : String) : String :=
  d.take 7

/-- One step of the monthly reduce: take the `YYYY-MM` bucket key as
`t.date.substring(0, 7)`, create the bucket with zero totals if absent,
then add the amount to the field named by the transaction type. -/
def serverMonthStep (acc : List MonthEntry) (t : StoredTx) : List MonthEntry :=
  if acc.any (fun e => e.month == monthOf t.date) then
    acc.map (fun e => if e.month == monthOf t.date then serverBump e t else e)
  else
    acc ++ [serverBump { month := monthOf t.date, income := 0, expense := 0 } t]

/-- The unsorted month buckets in key insertion order
(`Object.values` of the reduce accumulator). -/
def serverMonthlyRaw (l : List StoredTx) : List MonthEntry :=
  l.foldl serverMonthStep []

/-- The monthly series, sorted ascending by the month string
(`.sort((a, b) => a.month.localeCompare(b.month))`; the bucket keys are
distinct, so any correct sort yields the same list). -/
def serverMonthlyData (l : List StoredTx) : List MonthEntry :=
  List.insertionSort (fun a b => a.month ≤ b.month) (serverMonthlyRaw l)

/-- The full analytics response body of the GET analytics handler,
as a function of the stored transaction values. -/
def serverAnalytics (l : List StoredTx) : Analytics :=
  { totalIncome := serverTotalIncome l
    totalExpense := serverTotalExpense l
    balance := serverTotalIncome l - serverTotalExpense l
    expensesByCategory := serverExpensesByCategory l
    monthlyData := serverMonthlyData l }

/-! Client-side local-fallback analytics, embedded from
`calculateAnalytics`. The code is a separate copy in the client source,
so it is embedded separately, over client `Transaction` values. -/

/-- Client total income. -/
def clientTotalIncome (l : List Transaction) : Rat :=
  (l.filter (fun t => t.type == TxType.income)).foldl (fun sum t => sum + t.amount) 0

/-- Client total expense. -/
def clientTotalExpense (l : List Transaction) : Rat :=
  (l.filter (fun t => t.type == TxType.expense)).foldl (fun sum t => sum + t.amount) 0

/-- Client category-breakdown step, same shape as the server one. -/
def clientCategoryStep (acc : List (String × Rat)) (t : Transaction) : List (String × Rat) :=
  if acc.any (fun p => p.1 == t.category) then
    acc.map (fun p => if p.1 == t.category then (p.1, p.2 + t.amount) else p)
  else
    acc ++ [(t.category, t.amount)]

/-- Client category breakdown over expense transactions. -/
def clientExpensesByCategory (l : List Transaction) : List (String × Rat) :=
  (l.filter (fun t => t.type == TxType.expense)).foldl clientCategoryStep []

/-- Client month-bucket bump. -/
def clientBump (e : MonthEntry) (t : Transaction) : MonthEntry :=
  match t.type with
  | TxType.income => { e with income := e.income + t.amount }
  | TxType.expense => { e with expense := e.expense + t.amount }

/-- Client monthly reduce step. -/
def clientMonthStep (acc : List MonthEntry) (t : Transaction) : List MonthEntry :=
  if acc.any (fun e => e.month == monthOf t.date) then
    acc.map (fun e => if e.month == monthOf t.date then clientBump e t else e)
  else
    acc ++ [clientBump { month := monthOf t.date, income := 0, expense := 0 } t]

/-- Client unsorted month buckets. -/
def clientMonthlyRaw (l : List Transaction) : List MonthEntry :=
  l.foldl clientMonthStep []

/-- Client sorted monthly series. -/
def clientMonthlyData (l : List Transaction) : List MonthEntry :=
  List.insertionSort (fun a b => a.month ≤ b.month) (clientMonthlyRaw l)

/-- The client `calculateAnalytics` function. -/
def calculateAnalytics (l : List Transaction) : Analytics :=
  { totalIncome := clientTotalIncome l
    totalExpense := clientTotalExpense l
    balance := clientTotalIncome l - clientTotalExpense l
    expensesByCategory := clientExpensesByCategory l
    monthlyData := clientMonthlyData l }

/-! Request-handler layer: JavaScript value model, the record store, and
the POST and GET transaction handlers. -/

/-- A JSON scalar as it can appear in a request body field, with the
associated JavaScript truthiness. A rational `num` never models `NaN`. -/
inductive JsonVal where
  | null
  | bool (b : Bool)
  | num (q : Rat)
  | str (s : String)
deriving DecidableEq

/-- JavaScript truthiness of a JSON scalar: `null`, `false`, `0` and the
empty string are falsy. -/
def jsTruthy : JsonVal → Bool
  | JsonVal.null => false
  | JsonVal.bool b => b
  | JsonVal.num q => !(q == 0)
  | JsonVal.str s => !(s == "")

/-- Truthiness of a possibly absent JSON field (`undefined` is falsy). -/
def optTruthy : Option JsonVal → Bool
  | some v => jsTruthy v
  | none => false

/-- Truthiness of a possibly absent string field. -/
def optStrTruthy : Option String → Bool
  | some s => !(s == "")
  | none => false

/-- The JavaScript `x || d` idiom on a possibly absent string field:
the default is taken when the field is absent or the empty string. -/
def strOrElse (v : Option String) (d : String) : String :=
  match v with
  | some s => if s == "" then d else s
  | none => d

/-- Modelled from the spec: the record store implemented by
`kv_store.tsx` is not part of the sources; the spec describes it as an
opaque persistent mapping from string key to value supporting get, set,
delete and prefix-scan. It is modelled as an association list of keys
and stored transaction values. -/
abbrev Store : Type := List (String × StoredTx)

/-- Modelled from the spec: `kv.set` writes the value under the key,
replacing an existing binding and otherwise adding a new one. -/
def kvSet (store : Store) (k : String) (v : StoredTx) : Store :=
  if List.any store (fun p => p.1 == k) then
    List.map (fun p => if p.1 == k then (k, v) else p) store
  else
    store ++ [(k, v)]

/-- Key prefix test on the underlying character lists, used by the
prefix-scan model. -/
def keyHasTag (tag k : String) : Bool :=
  List.isPrefixOf tag.data k.data

/-- Modelled from the spec: `kv.getByPrefix` returns the key-value pairs
whose key extends the given prefix. -/
def kvScan (store : Store) (tag : String) : List (String × StoredTx) :=
  List.filter (fun p => keyHasTag tag p.1) store

/-- Recover the id from a store key:
`item.key.replace("transaction:", "")`. On the keys produced by the
prefix scan the pattern occurs as the leading tag, so the replacement
removes the first 12 characters; ids never contain the tag. -/
def recoverId (k : String) : String :=
  if keyHasTag "transaction:" k then k.drop 12 else k

/-- The GET transactions handler: scan the `transaction:` namespace and
merge the stripped key into each stored value as its id. -/
def listTransactions (store : Store) : List Transaction :=
  (kvScan store "transaction:").map (fun p => withId (recoverId p.1) p.2)

/-- The body of a POST transactions request, with each field optional as
in a JSON body. `type` is modelled at the type given by the client
interface; a present type tag is always truthy (its string form is
nonempty). -/
structure CreateBody where
  type : Option TxType
  amount : Option JsonVal
  category : Option String
  description : Option String
  date : Option String
deriving DecidableEq

/-- Outcome of the POST transactions handler: the success body carries
the created transaction with its id; the error body carries the HTTP
status and the error envelope message. -/
inductive CreateResult where
  | ok (tx : Transaction)
  | err (status : Nat) (msg : String)
deriving DecidableEq

/-- The POST transactions handler. `pf` models `parseFloat` into
`Option Rat` with `none` for `NaN`; the handler stores the parsed
amount (the `NaN` case has no rational representative and is mapped to
a default that no proved statement relies on: the theorems about
creation assume the amount parses). `newId` models the generated
timestamp-random id, `todayStr` the current date, `nowStr` the current
timestamp. Validation is the truthiness test
`!type || !amount || !category`. -/
def createTransaction (pf : JsonVal → Option Rat) (body : CreateBody)
    (newId todayStr nowStr : String) (store : Store) : Store × CreateResult :=
  if !(match body.type with | some _ => true | none => false)
      || !optTruthy body.amount || !optStrTruthy body.category then
    (store, CreateResult.err 400 "Missing required fields")
  else
    match body.type, body.amount, body.category with
    | some ty, some amtV, some cat =>
      let tx : StoredTx :=
        { type := ty
          amount := (pf amtV).getD 0
          category := cat
          description := strOrElse body.description ""
          date := strOrElse body.date todayStr
          createdAt := nowStr
          source := "manual"
          vendor := none }
      (kvSet store ("transaction:" ++ newId) tx, CreateResult.ok (withId newId tx))
    | _, _, _ => (store, CreateResult.err 400 "Missing required fields")

/-- The classifier response fields after JSON parsing, each possibly
absent. -/
structure ReceiptData where
  total : Option JsonVal
  category : Option String
  description : Option String
  vendor : Option String
deriving DecidableEq

/-- Outcome of the classifier transport call: a non-2xx response with
its status, or a 2xx response whose extracted candidate text is the
given possibly absent string. -/
inductive GeminiCall where
  | httpFail (status : Nat)
  | success (generatedText : Option String)
deriving DecidableEq

/-- Outcome of the POST process-receipt handler. -/
inductive ReceiptResult where
  | ok (rd : ReceiptData) (tx : Transaction)
  | err (status : Nat) (msg : String)
deriving DecidableEq

/-- The POST process-receipt handler. `pf` models `parseFloat` and `pj`
models `JSON.parse` of the trimmed classifier text into the constrained
receipt shape. Thrown errors are modelled by the catch-all error
response with status 500 and the prefixed message. -/
def processReceipt (pf : JsonVal → Option Rat) (pj : String → Option ReceiptData)
    (imageBase64 geminiApiKey : Option String) (call : GeminiCall)
    (newId todayStr nowStr : String) (store : Store) : Store × ReceiptResult :=
  if !optStrTruthy imageBase64 then
    (store, ReceiptResult.err 400 "No image provided")
  else if !optStrTruthy geminiApiKey then
    (store, ReceiptResult.err 500 "Gemini API key not configured")
  else
    match call with
    | GeminiCall.httpFail st =>
      (store, ReceiptResult.err 500 ("Failed to process receipt: Gemini API error: " ++ toString st))
    | GeminiCall.success none =>
      (store, ReceiptResult.err 500 "Failed to process receipt: No response from Gemini API")
    | GeminiCall.success (some s) =>
      if s == "" then
        (store, ReceiptResult.err 500 "Failed to process receipt: No response from Gemini API")
      else
        match pj s.trim with
        | none =>
          (store, ReceiptResult.err 500 "Failed to process receipt: Invalid response format from Gemini API")
        | some rd =>
          let tx : StoredTx :=
            { type := TxType.expense
              amount :=
                match rd.total.bind pf with
                | some q => if q == 0 then 0 else q
                | none => 0
              category := strOrElse rd.category "other"
              description := strOrElse rd.description (strOrElse rd.vendor "Receipt expense")
              date := todayStr
              createdAt := nowStr
              source := "receipt"
              vendor := some (strOrElse rd.vendor "") }
          (kvSet store ("transaction:" ++ newId) tx, ReceiptResult.ok rd (withId newId tx))

/-- Reference value used to state the monthly claim: summed income
amounts among stored transactions whose date starts with the given
month key. -/
def specServerIncomeIn (l : List StoredTx) (m : String) : Rat :=
  ((l.filter (fun t => t.type == TxType.income && monthOf t.date == m)).map
    (fun t => t.amount)).sum

/-- Reference summed expense amounts in a month, server side. -/
def specServerExpenseIn (l : List StoredTx) (m : String) : Rat :=
  ((l.filter (fun t => t.type == TxType.expense && monthOf t.date == m)).map
    (fun t => t.amount)).sum

/-- Reference summed income amounts in a month, over client
transactions. -/
def specClientIncomeIn (l : List Transaction) (m : String) : Rat :=
  ((l.filter (fun t => t.type == TxType.income && monthOf t.date == m)).map
    (fun t => t.amount)).sum

/-- Reference summed expense amounts in a month, over client
transactions. -/
def specClientExpenseIn (l : List Transaction) (m : String) : Rat :=
  ((l.filter (fun t => t.type == TxType.expense && monthOf t.date == m)).map
    (fun t => t.amount)).sum

/-- Invariant of the monthly reduce: month keys are distinct, the keys
are exactly the month prefixes of the processed transactions, and each
bucket carries the exact per-type sums of its month. -/
def ServerMonthInv (l : List StoredTx) (acc : List MonthEntry) : Prop :=
  (acc.map (fun e => e.month)).Nodup ∧
    (∀ m : String, (∃ e ∈ acc, e.month = m) ↔ ∃ t ∈ l, monthOf t.date = m) ∧
    ∀ e ∈ acc, e.income = specServerIncomeIn l e.month ∧
      e.expense = specServerExpenseIn l e.month

instance : IsTotal MonthEntry (fun a b => a.month ≤ b.month) :=
  ⟨fun a b => le_total a.month b.month⟩

instance : IsTrans MonthEntry (fun a b => a.month ≤ b.month) :=
  ⟨fun _ _ _ h1 h2 => le_trans h1 h2⟩

/-- Sample classifier response used by the C7 witness. -/
def rdSample : ReceiptData :=
  { total := some (JsonVal.str "12"), category := some "food",
    description := none, vendor := some "Shop" }

/-- Sample valid create body used by the C8 witness. -/
def bodySample : CreateBody :=
  { type := some TxType.income, amount := some (JsonVal.num 5),
    category := some "salary", description := some "pay",
    date := some "2024-01-02" }

/-! Helper lemmas about the embedded definitions. -/

lemma foldl_add_eq {α : Type} (f : α → Rat) (l : List α) (a : Rat) :
    l.foldl (fun s t => s + f t) a = a + (l.map f).sum := by
  induction l generalizing a with
  | nil => simp
  | cons x xs ih => simp [ih, add_assoc]

lemma serverTotalIncome_eq (l : List StoredTx) :
    serverTotalIncome l =
      ((l.filter (fun t => t.type == TxType.income)).map (fun t => t.amount)).sum := by
  have h := foldl_add_eq (fun t : StoredTx => t.amount)
    (l.filter (fun t => t.type == TxType.income)) 0
  simpa [serverTotalIncome] using h

lemma serverTotalExpense_eq (l : List StoredTx) :
    serverTotalExpense l =
      ((l.filter (fun t => t.type == TxType.expense)).map (fun t => t.amount)).sum := by
  have h := foldl_add_eq (fun t : StoredTx => t.amount)
    (l.filter (fun t => t.type == TxType.expense)) 0
  simpa [serverTotalExpense] using h

lemma keyHasTag_of_append (tag s : String) : keyHasTag tag (tag ++ s) = true := by
  unfold keyHasTag
  rw [String.data_append]
  exact List.isPrefixOf_iff_prefix.mpr (List.prefix_append _ _)

lemma recoverId_append (s : String) : recoverId ("transaction:" ++ s) = s := by
  unfold recoverId
  rw [if_pos (by simpa using keyHasTag_of_append "transaction:" s)]
  rw [String.drop_eq]
  apply String.ext
  simp [String.data_append]

lemma mem_kvSet (store : Store) (k : String) (v : StoredTx) : (k, v) ∈ kvSet store k v := by
  unfold kvSet
  by_cases h : List.any store (fun p => p.1 == k) = true
  · rw [if_pos h]
    obtain ⟨p, hp, hpk⟩ := List.any_eq_true.mp h
    rw [List.mem_map]
    exact ⟨p, hp, by simp [hpk]⟩
  · rw [if_neg h]
    simp

lemma mem_listTransactions (store : Store) (i : String) (v : StoredTx)
    (h : ("transaction:" ++ i, v) ∈ store) : withId i v ∈ listTransactions store := by
  unfold listTransactions kvScan
  rw [List.mem_map]
  refine ⟨("transaction:" ++ i, v), ?_, ?_⟩
  · rw [List.mem_filter]
    exact ⟨h, keyHasTag_of_append _ _⟩
  · rw [recoverId_append]

/-! Agreement of the two analytics code paths: the server computation
applied to the stored projections of a transaction list coincides with
the client computation. -/

lemma totalIncome_agree (l : List Transaction) :
    serverTotalIncome (l.map Transaction.toStoredTx) = clientTotalIncome l := by
  unfold serverTotalIncome clientTotalIncome
  rw [List.filter_map, List.foldl_map]
  rfl

lemma totalExpense_agree (l : List Transaction) :
    serverTotalExpense (l.map Transaction.toStoredTx) = clientTotalExpense l := by
  unfold serverTotalExpense clientTotalExpense
  rw [List.filter_map, List.foldl_map]
  rfl

lemma expensesByCategory_agree (l : List Transaction) :
    serverExpensesByCategory (l.map Transaction.toStoredTx) = clientExpensesByCategory l := by
  unfold serverExpensesByCategory clientExpensesByCategory
  rw [List.filter_map, List.foldl_map]
  rfl

lemma monthlyRaw_agree (l : List Transaction) :
    serverMonthlyRaw (l.map Transaction.toStoredTx) = clientMonthlyRaw l := by
  unfold serverMonthlyRaw clientMonthlyRaw
  rw [List.foldl_map]
  rfl

lemma monthlyData_agree (l : List Transaction) :
    serverMonthlyData (l.map Transaction.toStoredTx) = clientMonthlyData l := by
  unfold serverMonthlyData clientMonthlyData
  rw [monthlyRaw_agree]

lemma analytics_agree (l : List Transaction) :
    serverAnalytics (l.map Transaction.toStoredTx) = calculateAnalytics l := by
  unfold serverAnalytics calculateAnalytics
  rw [totalIncome_agree, totalExpense_agree, expensesByCategory_agree, monthlyData_agree]

/-! Category-breakdown fold: key nodup invariant and value-sum
invariant, giving the grouping-preserves-total property. -/

lemma bump_map_id (acc : List (String × Rat)) (c : String) (a : Rat)
    (h : ∀ p ∈ acc, ¬((p.1 == c) = true)) :
    acc.map (fun p => if p.1 == c then (p.1, p.2 + a) else p) = acc := by
  induction acc with
  | nil => rfl
  | cons x xs ih =>
    rw [List.map_cons, if_neg (h x (List.mem_cons_self _ _)),
      ih (fun p hp => h p (List.mem_cons_of_mem _ hp))]

lemma sum_map_bump (acc : List (String × Rat)) (c : String) (a : Rat)
    (hnd : (acc.map (fun p => p.1)).Nodup) (hmem : acc.any (fun p => p.1 == c) = true) :
    ((acc.map (fun p => if p.1 == c then (p.1, p.2 + a) else p)).map (fun p => p.2)).sum =
      (acc.map (fun p => p.2)).sum + a := by
  induction acc with
  | nil => simp at hmem
  | cons x xs ih =>
    rw [List.map_cons, List.nodup_cons] at hnd
    by_cases hx : (x.1 == c) = true
    · have hc : x.1 = c := by simpa using hx
      have hxs : ∀ p ∈ xs, ¬((p.1 == c) = true) := by
        intro p hp hpc
        apply hnd.1
        rw [hc, ← (show p.1 = c by simpa using hpc)]
        exact List.mem_map_of_mem (fun p => p.1) hp
      rw [List.map_cons, if_pos hx, bump_map_id xs c a hxs]
      simp only [List.map_cons, List.sum_cons]
      ring
    · have hmem2 : xs.any (fun p => p.1 == c) = true := by
        rcases List.any_eq_true.mp hmem with ⟨p, hp, hpc⟩
        rcases List.mem_cons.mp hp with h1 | h2
        · exact absurd (h1 ▸ hpc) hx
        · exact List.any_eq_true.mpr ⟨p, h2, hpc⟩
      rw [List.map_cons, if_neg hx]
      simp only [List.map_cons, List.sum_cons, ih hnd.2 hmem2]
      ring

lemma catStep_sum (acc : List (String × Rat)) (t : StoredTx)
    (hnd : (acc.map (fun p => p.1)).Nodup) :
    ((serverCategoryStep acc t).map (fun p => p.2)).sum =
      (acc.map (fun p => p.2)).sum + t.amount := by
  unfold serverCategoryStep
  by_cases h : acc.any (fun p => p.1 == t.category) = true
  · rw [if_pos h]
    exact sum_map_bump acc t.category t.amount hnd h
  · rw [if_neg h]
    simp

lemma catStep_keys_nodup (acc : List (String × Rat)) (t : StoredTx)
    (hnd : (acc.map (fun p => p.1)).Nodup) :
    ((serverCategoryStep acc t).map (fun p => p.1)).Nodup := by
  unfold serverCategoryStep
  by_cases h : acc.any (fun p => p.1 == t.category) = true
  · rw [if_pos h, List.map_map]
    have heq : ((fun p : String × Rat => p.1) ∘
        fun p => if p.1 == t.category then (p.1, p.2 + t.amount) else p) =
        fun p : String × Rat => p.1 := by
      funext p
      by_cases hp : (p.1 == t.category) = true <;> simp [Function.comp, hp]
    rw [heq]
    exact hnd
  · rw [if_neg h, List.map_append]
    apply List.nodup_append.mpr
    refine ⟨hnd, by simp, ?_⟩
    intro x hx hx2
    rcases List.mem_map.mp hx with ⟨p, hp, rfl⟩
    have hxc : p.1 = t.category := by simpa using hx2
    exact h (List.any_eq_true.mpr ⟨p, hp, by simp [hxc]⟩)

lemma catFold_nodup_sum (rest : List StoredTx) (acc : List (String × Rat))
    (hnd : (acc.map (fun p => p.1)).Nodup) :
    ((rest.foldl serverCategoryStep acc).map (fun p => p.1)).Nodup ∧
      ((rest.foldl serverCategoryStep acc).map (fun p => p.2)).sum =
        (acc.map (fun p => p.2)).sum + (rest.map (fun t => t.amount)).sum := by
  induction rest generalizing acc with
  | nil => simp [hnd]
  | cons t ts ih =>
    obtain ⟨h1, h2⟩ := ih (serverCategoryStep acc t) (catStep_keys_nodup acc t hnd)
    refine ⟨by simpa using h1, ?_⟩
    rw [List.foldl_cons, h2, catStep_sum acc t hnd]
    simp only [List.map_cons, List.sum_cons]
    ring

lemma serverCat_sum (l : List StoredTx) :
    ((serverExpensesByCategory l).map (fun p => p.2)).sum =
      ((l.filter (fun t => t.type == TxType.expense)).map (fun t => t.amount)).sum := by
  have h := catFold_nodup_sum (l.filter (fun t => t.type == TxType.expense)) [] (by simp)
  simpa [serverExpensesByCategory] using h.2

/-! Monthly aggregation: reference per-month sums and the fold
invariant showing the buckets are exactly the distinct month prefixes
with exact per-type sums. -/

lemma MonthEntry.month_mk (m : String) (i e : Rat) : (MonthEntry.mk m i e).month = m := rfl

lemma MonthEntry.income_mk (m : String) (i e : Rat) : (MonthEntry.mk m i e).income = i := rfl

lemma MonthEntry.expense_mk (m : String) (i e : Rat) : (MonthEntry.mk m i e).expense = e := rfl

lemma serverBump_month (e : MonthEntry) (t : StoredTx) :
    (serverBump e t).month = e.month := by
  unfold serverBump
  rcases ht : t.type <;> simp [ht]

lemma serverBump_income (e : MonthEntry) (t : StoredTx) :
    (serverBump e t).income = e.income + (if t.type = TxType.income then t.amount else 0) := by
  unfold serverBump
  rcases ht : t.type <;> simp [ht]

lemma serverBump_expense (e : MonthEntry) (t : StoredTx) :
    (serverBump e t).expense = e.expense + (if t.type = TxType.expense then t.amount else 0) := by
  unfold serverBump
  rcases ht : t.type <;> simp [ht]

lemma specServerIncomeIn_append (l : List StoredTx) (t : StoredTx) (m : String) :
    specServerIncomeIn (l ++ [t]) m =
      specServerIncomeIn l m +
        (if t.type = TxType.income ∧ monthOf t.date = m then t.amount else 0) := by
  unfold specServerIncomeIn
  rw [List.filter_append, List.map_append, List.sum_append]
  congr 1
  by_cases h : t.type = TxType.income ∧ monthOf t.date = m
  · simp [List.filter_cons, h.1, h.2, h]
  · have hb : (t.type == TxType.income && monthOf t.date == m) = false := by
      rcases not_and_or.mp h with h1 | h1 <;> simp [h1]
    simp [List.filter_cons, hb, h]

lemma specServerExpenseIn_append (l : List StoredTx) (t : StoredTx) (m : String) :
    specServerExpenseIn (l ++ [t]) m =
      specServerExpenseIn l m +
        (if t.type = TxType.expense ∧ monthOf t.date = m then t.amount else 0) := by
  unfold specServerExpenseIn
  rw [List.filter_append, List.map_append, List.sum_append]
  congr 1
  by_cases h : t.type = TxType.expense ∧ monthOf t.date = m
  · simp [List.filter_cons, h.1, h.2, h]
  · have hb : (t.type == TxType.expense && monthOf t.date == m) = false := by
      rcases not_and_or.mp h with h1 | h1 <;> simp [h1]
    simp [List.filter_cons, hb, h]

lemma specServerIncomeIn_zero (l : List StoredTx) (m : String)
    (h : ∀ t ∈ l, ¬(monthOf t.date = m)) : specServerIncomeIn l m = 0 := by
  unfold specServerIncomeIn
  have hf : l.filter (fun t => t.type == TxType.income && monthOf t.date == m) = [] := by
    apply List.filter_eq_nil_iff.mpr
    intro t ht hcond
    exact h t ht (by simpa using (Bool.and_eq_true _ _ |>.mp hcond).2)
  rw [hf]
  simp

lemma specServerExpenseIn_zero (l : List StoredTx) (m : String)
    (h : ∀ t ∈ l, ¬(monthOf t.date = m)) : specServerExpenseIn l m = 0 := by
  unfold specServerExpenseIn
  have hf : l.filter (fun t => t.type == TxType.expense && monthOf t.date == m) = [] := by
    apply List.filter_eq_nil_iff.mpr
    intro t ht hcond
    exact h t ht (by simpa using (Bool.and_eq_true _ _ |>.mp hcond).2)
  rw [hf]
  simp

lemma exists_month_iff_mem (A : List MonthEntry) (m : String) :
    (∃ e ∈ A, e.month = m) ↔ m ∈ A.map (fun e => e.month) := by
  rw [List.mem_map]

set_option maxHeartbeats 1600000 in
lemma monthStep_inv (l : List StoredTx) (acc : List MonthEntry) (t : StoredTx)
    (h : ServerMonthInv l acc) : ServerMonthInv (l ++ [t]) (serverMonthStep acc t) := by
  obtain ⟨hnd, hiff, hsum⟩ := h
  unfold serverMonthStep
  by_cases hp : acc.any (fun e => e.month == monthOf t.date) = true
  · rw [if_pos hp]
    have hmonths : (acc.map (fun e =>
        if e.month == monthOf t.date then serverBump e t else e)).map (fun e => e.month) =
        acc.map (fun e => e.month) := by
      rw [List.map_map]
      apply List.map_congr_left
      intro e _
      by_cases hm : e.month = monthOf t.date <;>
        simp [Function.comp, hm, serverBump_month]
    refine ⟨?_, ?_, ?_⟩
    · rw [hmonths]
      exact hnd
    · intro m
      rw [exists_month_iff_mem, hmonths, ← exists_month_iff_mem, hiff m]
      constructor
      · rintro ⟨t2, ht2, hm2⟩
        exact ⟨t2, List.mem_append_left _ ht2, hm2⟩
      · rintro ⟨t2, ht2, hm2⟩
        rcases List.mem_append.mp ht2 with h2 | h2
        · exact ⟨t2, h2, hm2⟩
        · rw [List.mem_singleton] at h2
          rcases List.any_eq_true.mp hp with ⟨e, he, hem⟩
          have hem2 : e.month = monthOf t.date := by simpa using hem
          refine (hiff m).mp ⟨e, he, ?_⟩
          rw [hem2, ← h2]
          exact hm2
    · intro e2 he2
      rcases List.mem_map.mp he2 with ⟨e, he, rfl⟩
      have hspec := hsum e he
      by_cases hm : e.month = monthOf t.date
      · rw [if_pos (by simp [hm])]
        constructor
        · rw [serverBump_month, serverBump_income, specServerIncomeIn_append, hspec.1]
          congr 1
          rw [← hm]
          simp
        · rw [serverBump_month, serverBump_expense, specServerExpenseIn_append, hspec.2]
          congr 1
          rw [← hm]
          simp
      · rw [if_neg (by simp [hm])]
        constructor
        · rw [specServerIncomeIn_append, hspec.1]
          rw [if_neg (by rintro ⟨h1, h2⟩; exact hm h2.symm)]
          ring
        · rw [specServerExpenseIn_append, hspec.2]
          rw [if_neg (by rintro ⟨h1, h2⟩; exact hm h2.symm)]
          ring
  · rw [if_neg hp]
    have habs : ∀ e ∈ acc, ¬(e.month = monthOf t.date) := by
      intro e he hme
      exact hp (List.any_eq_true.mpr ⟨e, he, by simp [hme]⟩)
    have hnol : ∀ t2 ∈ l, ¬(monthOf t2.date = monthOf t.date) := by
      intro t2 ht2 hpre
      rcases (hiff (monthOf t.date)).mpr ⟨t2, ht2, hpre⟩ with ⟨e, he, hme⟩
      exact habs e he hme
    refine ⟨?_, ?_, ?_⟩
    · rw [List.map_append]
      apply List.nodup_append.mpr
      refine ⟨hnd, List.nodup_singleton _, ?_⟩
      intro x hx hx2
      rcases List.mem_map.mp hx with ⟨e, he, rfl⟩
      simp only [List.map_singleton, List.mem_singleton] at hx2
      rw [serverBump_month, MonthEntry.month_mk] at hx2
      exact habs e he hx2
    · intro m
      constructor
      · rintro ⟨e2, he2, hm2⟩
        rcases List.mem_append.mp he2 with h2 | h2
        · rcases (hiff m).mp ⟨e2, h2, hm2⟩ with ⟨t2, ht2, hp2⟩
          exact ⟨t2, List.mem_append_left _ ht2, hp2⟩
        · rw [List.mem_singleton] at h2
          refine ⟨t, List.mem_append_right _ (List.mem_singleton.mpr rfl), ?_⟩
          rw [← hm2, h2, serverBump_month, MonthEntry.month_mk]
      · rintro ⟨t2, ht2, hp2⟩
        rcases List.mem_append.mp ht2 with h2 | h2
        · rcases (hiff m).mpr ⟨t2, h2, hp2⟩ with ⟨e, he, hme⟩
          exact ⟨e, List.mem_append_left _ he, hme⟩
        · rw [List.mem_singleton] at h2
          refine ⟨serverBump ⟨monthOf t.date, 0, 0⟩ t,
            List.mem_append_right _ (List.mem_singleton.mpr rfl), ?_⟩
          rw [serverBump_month, MonthEntry.month_mk, ← h2]
          exact hp2
    · intro e2 he2
      rcases List.mem_append.mp he2 with h2 | h2
      · have hspec := hsum e2 h2
        have hne : ¬(t.type = TxType.income ∧ monthOf t.date = e2.month) := by
          rintro ⟨h3, h4⟩
          exact habs e2 h2 h4.symm
        have hne2 : ¬(t.type = TxType.expense ∧ monthOf t.date = e2.month) := by
          rintro ⟨h3, h4⟩
          exact habs e2 h2 h4.symm
        constructor
        · rw [specServerIncomeIn_append, hspec.1, if_neg hne]
          ring
        · rw [specServerExpenseIn_append, hspec.2, if_neg hne2]
          ring
      · rw [List.mem_singleton] at h2
        have hzero1 : specServerIncomeIn l (monthOf t.date) = 0 :=
          specServerIncomeIn_zero l _ hnol
        have hzero2 : specServerExpenseIn l (monthOf t.date) = 0 :=
          specServerExpenseIn_zero l _ hnol
        rw [h2]
        constructor
        · rw [serverBump_income, MonthEntry.income_mk, serverBump_month,
            MonthEntry.month_mk, specServerIncomeIn_append, hzero1]
          by_cases ht : t.type = TxType.income <;> simp [ht]
        · rw [serverBump_expense, MonthEntry.expense_mk, serverBump_month,
            MonthEntry.month_mk, specServerExpenseIn_append, hzero2]
          by_cases ht : t.type = TxType.expense <;> simp [ht]

lemma monthFold_inv (rest pre : List StoredTx) (acc : List MonthEntry)
    (h : ServerMonthInv pre acc) :
    ServerMonthInv (pre ++ rest) (rest.foldl serverMonthStep acc) := by
  induction rest generalizing pre acc with
  | nil => simpa using h
  | cons t ts ih =>
    have h2 := ih (pre ++ [t]) (serverMonthStep acc t) (monthStep_inv pre acc t h)
    simpa [List.append_assoc] using h2

lemma serverMonthlyRaw_inv (l : List StoredTx) : ServerMonthInv l (serverMonthlyRaw l) := by
  have h0 : ServerMonthInv [] [] := by
    refine ⟨by simp, ?_, by simp⟩
    intro m
    simp
  have h := monthFold_inv l [] [] h0
  simpa [serverMonthlyRaw] using h

lemma serverMonthlyData_sorted (l : List StoredTx) :
    List.Sorted (fun a b : MonthEntry => a.month ≤ b.month) (serverMonthlyData l) :=
  List.sorted_insertionSort _ _

lemma serverMonthlyData_perm (l : List StoredTx) :
    (serverMonthlyData l).Perm (serverMonthlyRaw l) :=
  List.perm_insertionSort _ _

lemma serverMonthlyData_inv (l : List StoredTx) : ServerMonthInv l (serverMonthlyData l) := by
  obtain ⟨hnd, hiff, hsum⟩ := serverMonthlyRaw_inv l
  have hp := serverMonthlyData_perm l
  refine ⟨?_, ?_, ?_⟩
  · exact ((hp.map (fun e => e.month)).nodup_iff).mpr hnd
  · intro m
    rw [← hiff m]
    constructor
    · rintro ⟨e, he, hm⟩
      exact ⟨e, hp.mem_iff.mp he, hm⟩
    · rintro ⟨e, he, hm⟩
      exact ⟨e, hp.mem_iff.mpr he, hm⟩
  · intro e he
    exact hsum e (hp.mem_iff.mp he)

/-! Transfer of the server-side facts to the client computation through
the agreement lemmas. -/

lemma clientTotalIncome_eq (l : List Transaction) :
    clientTotalIncome l =
      ((l.filter (fun t => t.type == TxType.income)).map (fun t => t.amount)).sum := by
  have h := foldl_add_eq (fun t : Transaction => t.amount)
    (l.filter (fun t => t.type == TxType.income)) 0
  simpa [clientTotalIncome] using h

lemma clientTotalExpense_eq (l : List Transaction) :
    clientTotalExpense l =
      ((l.filter (fun t => t.type == TxType.expense)).map (fun t => t.amount)).sum := by
  have h := foldl_add_eq (fun t : Transaction => t.amount)
    (l.filter (fun t => t.type == TxType.expense)) 0
  simpa [clientTotalExpense] using h

lemma specIncomeIn_agree (ts : List Transaction) (m : String) :
    specServerIncomeIn (ts.map Transaction.toStoredTx) m = specClientIncomeIn ts m := by
  unfold specServerIncomeIn specClientIncomeIn
  rw [List.filter_map, List.map_map]
  rfl

lemma specExpenseIn_agree (ts : List Transaction) (m : String) :
    specServerExpenseIn (ts.map Transaction.toStoredTx) m = specClientExpenseIn ts m := by
  unfold specServerExpenseIn specClientExpenseIn
  rw [List.filter_map, List.map_map]
  rfl

lemma exists_date_map (ts : List Transaction) (m : String) :
    (∃ t ∈ ts.map Transaction.toStoredTx, monthOf t.date = m) ↔
      ∃ t ∈ ts, monthOf t.date = m := by
  constructor
  · rintro ⟨t2, ht2, hm⟩
    rcases List.mem_map.mp ht2 with ⟨t, ht, rfl⟩
    exact ⟨t, ht, hm⟩
  · rintro ⟨t, ht, hm⟩
    exact ⟨t.toStoredTx, List.mem_map_of_mem _ ht, hm⟩

/-- Claim C1: the server-side analytics computation and the client-side
local-fallback `calculateAnalytics` are extensionally equal: for every
sequence of transactions, running the server aggregation over the
stored projections yields exactly the same totalIncome, totalExpense,
balance, expensesByCategory and monthlyData as the client aggregation
over the transactions themselves. -/
theorem c1_server_client_analytics_agree :
    ∀ ts : List Transaction,
      serverAnalytics (ts.map Transaction.toStoredTx) = calculateAnalytics ts :=
  fun ts => analytics_agree ts

/-- Claim C2: for every sequence of transactions, the values of the
expensesByCategory mapping sum to exactly totalExpense, in both the
server and the client analytics computation. -/
theorem c2_category_sum_eq_totalExpense :
    ∀ (l : List StoredTx) (ts : List Transaction),
      (((serverAnalytics l).expensesByCategory).map (fun p => p.2)).sum =
          (serverAnalytics l).totalExpense ∧
        (((calculateAnalytics ts).expensesByCategory).map (fun p => p.2)).sum =
          (calculateAnalytics ts).totalExpense := by
  intro l ts
  constructor
  · show ((serverExpensesByCategory l).map (fun p => p.2)).sum = serverTotalExpense l
    rw [serverCat_sum, serverTotalExpense_eq]
  · show ((clientExpensesByCategory ts).map (fun p => p.2)).sum = clientTotalExpense ts
    rw [← expensesByCategory_agree, ← totalExpense_agree, serverCat_sum, serverTotalExpense_eq]

/-- Claim C4: for every sequence of transactions, balance equals
totalIncome minus totalExpense exactly, where totalIncome is the sum of
amounts over income transactions and totalExpense the sum over expense
transactions; in both analytics computations. -/
theorem c4_balance_eq_income_sub_expense :
    ∀ (l : List StoredTx) (ts : List Transaction),
      ((serverAnalytics l).balance =
            (serverAnalytics l).totalIncome - (serverAnalytics l).totalExpense ∧
          (serverAnalytics l).totalIncome =
            ((l.filter (fun t => t.type == TxType.income)).map (fun t => t.amount)).sum ∧
          (serverAnalytics l).totalExpense =
            ((l.filter (fun t => t.type == TxType.expense)).map (fun t => t.amount)).sum) ∧
        ((calculateAnalytics ts).balance =
            (calculateAnalytics ts).totalIncome - (calculateAnalytics ts).totalExpense ∧
          (calculateAnalytics ts).totalIncome =
            ((ts.filter (fun t => t.type == TxType.income)).map (fun t => t.amount)).sum ∧
          (calculateAnalytics ts).totalExpense =
            ((ts.filter (fun t => t.type == TxType.expense)).map (fun t => t.amount)).sum) := by
  intro l ts
  exact ⟨⟨rfl, serverTotalIncome_eq l, serverTotalExpense_eq l⟩,
    ⟨rfl, clientTotalIncome_eq ts, clientTotalExpense_eq ts⟩⟩

/-- Claim C9: on the empty sequence of transactions both analytics
computations return zero totals, zero balance, an empty category
mapping and an empty monthly series. -/
theorem c9_empty_analytics :
    serverAnalytics [] =
        { totalIncome := 0, totalExpense := 0, balance := 0,
          expensesByCategory := [], monthlyData := [] } ∧
      calculateAnalytics [] =
        { totalIncome := 0, totalExpense := 0, balance := 0,
          expensesByCategory := [], monthlyData := [] } := by
  constructor <;>
    simp [serverAnalytics, calculateAnalytics, Analytics.mk.injEq,
      serverTotalIncome, serverTotalExpense, serverExpensesByCategory,
      serverMonthlyData, serverMonthlyRaw, clientTotalIncome, clientTotalExpense,
      clientExpensesByCategory, clientMonthlyData, clientMonthlyRaw, List.insertionSort]

/-- Claim C3: for every sequence of transactions, monthlyData has
exactly one record per distinct month prefix (`monthOf` is the first
seven characters of the date) occurring in the input, with no
duplicates, each record carrying the exact income and expense sums of
its bucket (0 when the bucket has no transaction of that type, as the
reference sums evaluate to 0 on an empty filter), and the records
sorted ascending by the month string (the order on `String` is
lexicographic); in both analytics computations. -/
theorem c3_monthlyData_buckets_sorted :
    ∀ (l : List StoredTx) (ts : List Transaction),
      (List.Sorted (fun a b : MonthEntry => a.month ≤ b.month)
          (serverAnalytics l).monthlyData ∧
        (((serverAnalytics l).monthlyData).map (fun e => e.month)).Nodup ∧
        (∀ m : String, (∃ e ∈ (serverAnalytics l).monthlyData, e.month = m) ↔
          ∃ t ∈ l, monthOf t.date = m) ∧
        ∀ e ∈ (serverAnalytics l).monthlyData,
          e.income = specServerIncomeIn l e.month ∧
            e.expense = specServerExpenseIn l e.month) ∧
      (List.Sorted (fun a b : MonthEntry => a.month ≤ b.month)
          (calculateAnalytics ts).monthlyData ∧
        (((calculateAnalytics ts).monthlyData).map (fun e => e.month)).Nodup ∧
        (∀ m : String, (∃ e ∈ (calculateAnalytics ts).monthlyData, e.month = m) ↔
          ∃ t ∈ ts, monthOf t.date = m) ∧
        ∀ e ∈ (calculateAnalytics ts).monthlyData,
          e.income = specClientIncomeIn ts e.month ∧
            e.expense = specClientExpenseIn ts e.month) := by
  intro l ts
  constructor
  · obtain ⟨hnd, hiff, hsum⟩ := serverMonthlyData_inv l
    exact ⟨serverMonthlyData_sorted l, hnd, hiff, hsum⟩
  · rw [show (calculateAnalytics ts).monthlyData =
      serverMonthlyData (ts.map Transaction.toStoredTx) from (monthlyData_agree ts).symm]
    obtain ⟨hnd, hiff, hsum⟩ := serverMonthlyData_inv (ts.map Transaction.toStoredTx)
    refine ⟨serverMonthlyData_sorted _, hnd, ?_, ?_⟩
    · intro m
      rw [hiff m]
      exact exists_date_map ts m
    · intro e he
      obtain ⟨h1, h2⟩ := hsum e he
      exact ⟨by rw [h1, specIncomeIn_agree], by rw [h2, specExpenseIn_agree]⟩

/-- Claim C6: a create request missing the type, amount or category
field fails with the 400 error envelope `Missing required fields` and
leaves the store unchanged. -/
theorem c6_create_missing_field_rejected :
    ∀ (pf : JsonVal → Option Rat) (body : CreateBody) (newId todayStr nowStr : String)
      (store : Store),
      body.type = none ∨ body.amount = none ∨ body.category = none →
      createTransaction pf body newId todayStr nowStr store =
        (store, CreateResult.err 400 "Missing required fields") := by
  intro pf body newId todayStr nowStr store h
  unfold createTransaction
  rcases h with h | h | h <;> rw [h] <;> simp [optTruthy, optStrTruthy]

/-- Claim C10: a create request whose type and category are present but
whose amount field holds a falsy value (such as the number 0 or the
empty string) is rejected with the same 400 `Missing required fields`
error and persists nothing, even though every required field is
present. -/
theorem c10_falsy_amount_rejected :
    ∀ (pf : JsonVal → Option Rat) (body : CreateBody) (newId todayStr nowStr : String)
      (store : Store) (ty : TxType) (av : JsonVal) (cat : String),
      body.type = some ty → body.amount = some av → body.category = some cat →
      jsTruthy av = false →
      createTransaction pf body newId todayStr nowStr store =
        (store, CreateResult.err 400 "Missing required fields") := by
  intro pf body newId todayStr nowStr store ty av cat h1 h2 h3 h4
  unfold createTransaction
  rw [h1, h2]
  simp [optTruthy, h4]

/-- Claim C5: when the classifier transport call succeeds with a
nonempty text whose trimmed form does not parse as JSON, receipt
processing fails with the 500 invalid-response error carrying the
message, and the store is unchanged: no transaction is created. -/
theorem c5_unparseable_classifier_rejected :
    ∀ (pf : JsonVal → Option Rat) (pj : String → Option ReceiptData)
      (imageBase64 geminiApiKey : Option String) (s newId todayStr nowStr : String)
      (store : Store),
      optStrTruthy imageBase64 = true → optStrTruthy geminiApiKey = true →
      ¬(s = "") → pj s.trim = none →
      processReceipt pf pj imageBase64 geminiApiKey (GeminiCall.success (some s))
          newId todayStr nowStr store =
        (store, ReceiptResult.err 500
          "Failed to process receipt: Invalid response format from Gemini API") := by
  intro pf pj img key s newId todayStr nowStr store h1 h2 h3 h4
  unfold processReceipt
  rw [h1, h2]
  simp [h3, h4]

/-- Claim C7: on a successfully parsed classifier response, receipt
processing stores (and returns, with the new id) a transaction whose
type is expense unconditionally, whose amount is the numeric parse of
the total field with 0 for an unparseable total, whose category
defaults to `other`, whose description falls back to the vendor and
then to `Receipt expense`, whose date is today, whose source is
`receipt`, and whose vendor defaults to the empty string. -/
theorem c7_receipt_success_transaction_fields :
    ∀ (pf : JsonVal → Option Rat) (pj : String → Option ReceiptData)
      (imageBase64 geminiApiKey : Option String) (s newId todayStr nowStr : String)
      (store : Store) (rd : ReceiptData),
      optStrTruthy imageBase64 = true → optStrTruthy geminiApiKey = true →
      ¬(s = "") → pj s.trim = some rd →
      ∃ tx : StoredTx,
        processReceipt pf pj imageBase64 geminiApiKey (GeminiCall.success (some s))
            newId todayStr nowStr store =
          (kvSet store ("transaction:" ++ newId) tx,
            ReceiptResult.ok rd (withId newId tx)) ∧
        tx.type = TxType.expense ∧
        tx.amount = (rd.total.bind pf).getD 0 ∧
        tx.category = strOrElse rd.category "other" ∧
        tx.description = strOrElse rd.description (strOrElse rd.vendor "Receipt expense") ∧
        tx.date = todayStr ∧
        tx.createdAt = nowStr ∧
        tx.source = "receipt" ∧
        tx.vendor = some (strOrElse rd.vendor "") := by
  intro pf pj img key s newId todayStr nowStr store rd h1 h2 h3 h4
  refine ⟨{ type := TxType.expense
            amount := match rd.total.bind pf with
              | some q => if q == 0 then 0 else q
              | none => 0
            category := strOrElse rd.category "other"
            description := strOrElse rd.description (strOrElse rd.vendor "Receipt expense")
            date := todayStr
            createdAt := nowStr
            source := "receipt"
            vendor := some (strOrElse rd.vendor "") }, ?_, rfl, ?_, rfl, rfl, rfl, rfl, rfl, rfl⟩
  · unfold processReceipt
    rw [h1, h2]
    simp [h3, h4]
  · show (match rd.total.bind pf with
      | some q => if q == 0 then 0 else q
      | none => 0) = (rd.total.bind pf).getD 0
    rcases hr : rd.total.bind pf with _ | q
    · simp
    · by_cases hq : q = 0 <;> simp [hq]

/-- Claim C8: for a create request that passes validation (type,
amount and category present and truthy) and whose amount parses to a
number, creating and then listing yields a transaction whose id is the
newly assigned id recovered by stripping the `transaction:` key tag,
whose type, amount, category and description equal the input, whose
date is the input date with today substituted when the field is absent
or empty, whose createdAt is the creation timestamp, and whose source
is `manual`. -/
theorem c8_create_then_list_roundtrip :
    ∀ (pf : JsonVal → Option Rat) (body : CreateBody) (newId todayStr nowStr : String)
      (store : Store) (ty : TxType) (av : JsonVal) (q : Rat) (cat ds : String),
      body.type = some ty → body.amount = some av → jsTruthy av = true →
      pf av = some q → body.category = some cat → ¬(cat = "") →
      body.description = some ds →
      ∃ tx ∈ listTransactions (createTransaction pf body newId todayStr nowStr store).1,
        tx.id = newId ∧ tx.type = ty ∧ tx.amount = q ∧ tx.category = cat ∧
          tx.description = ds ∧ tx.date = strOrElse body.date todayStr ∧
          tx.createdAt = nowStr ∧ tx.source = "manual" := by
  intro pf body newId todayStr nowStr store ty av q cat ds h1 h2 h3 h4 h5 h6 h7
  have hstep : (createTransaction pf body newId todayStr nowStr store).1 =
      kvSet store ("transaction:" ++ newId)
        { type := ty, amount := (pf av).getD 0, category := cat,
          description := strOrElse body.description "",
          date := strOrElse body.date todayStr,
          createdAt := nowStr, source := "manual", vendor := none } := by
    unfold createTransaction
    rw [h1, h2, h5]
    simp [optTruthy, optStrTruthy, h3, h6]
  rw [hstep]
  refine ⟨withId newId _, mem_listTransactions _ _ _ (mem_kvSet _ _ _),
    rfl, rfl, ?_, rfl, ?_, rfl, rfl, rfl⟩
  · show ((pf av).getD 0) = q
    rw [h4]
    rfl
  · show strOrElse body.description "" = ds
    rw [h7]
    unfold strOrElse
    by_cases hds : ds = "" <;> simp [hds]

/-- Witness for C5 at a concrete request, classifier text and store. -/
theorem c5_witness :
    processReceipt (fun _ => none) (fun _ => none) (some "img") (some "key")
        (GeminiCall.success (some "notjson")) "id1" "2024-01-02" "now" [] =
      ([], ReceiptResult.err 500
        "Failed to process receipt: Invalid response format from Gemini API") :=
  c5_unparseable_classifier_rejected (fun _ => none) (fun _ => none) (some "img")
    (some "key") "notjson" "id1" "2024-01-02" "now" [] (by decide) (by decide)
    (by decide) rfl

/-- Witness for C6 at a concrete body with all required fields absent. -/
theorem c6_witness :
    createTransaction (fun _ => none) ⟨none, none, none, none, none⟩
        "id1" "2024-01-02" "now" [] =
      ([], CreateResult.err 400 "Missing required fields") :=
  c6_create_missing_field_rejected (fun _ => none) ⟨none, none, none, none, none⟩
    "id1" "2024-01-02" "now" [] (Or.inl rfl)

/-- Witness for C7 at a concrete parsed classifier response. -/
theorem c7_witness :
    ∃ tx : StoredTx,
      processReceipt (fun _ => some 12) (fun _ => some rdSample) (some "img") (some "key")
          (GeminiCall.success (some "x")) "id1" "2024-01-02" "now" [] =
        (kvSet [] ("transaction:" ++ "id1") tx,
          ReceiptResult.ok rdSample (withId "id1" tx)) ∧
      tx.type = TxType.expense ∧
      tx.amount = (rdSample.total.bind (fun _ => some 12)).getD 0 ∧
      tx.category = strOrElse rdSample.category "other" ∧
      tx.description = strOrElse rdSample.description
        (strOrElse rdSample.vendor "Receipt expense") ∧
      tx.date = "2024-01-02" ∧ tx.createdAt = "now" ∧ tx.source = "receipt" ∧
      tx.vendor = some (strOrElse rdSample.vendor "") :=
  c7_receipt_success_transaction_fields (fun _ => some 12) (fun _ => some rdSample)
    (some "img") (some "key") "x" "id1" "2024-01-02" "now" [] rdSample
    (by decide) (by decide) (by decide) rfl

/-- Witness for C8 at a concrete valid create body over the empty
store. -/
theorem c8_witness :
    ∃ tx ∈ listTransactions
        (createTransaction (fun _ => some 5) bodySample "id1" "2024-01-03" "now" []).1,
      tx.id = "id1" ∧ tx.type = TxType.income ∧ tx.amount = 5 ∧ tx.category = "salary" ∧
        tx.description = "pay" ∧ tx.date = strOrElse bodySample.date "2024-01-03" ∧
        tx.createdAt = "now" ∧ tx.source = "manual" :=
  c8_create_then_list_roundtrip (fun _ => some 5) bodySample "id1" "2024-01-03" "now" []
    TxType.income (JsonVal.num 5) 5 "salary" "pay" rfl rfl (by decide) rfl rfl
    (by decide) rfl

/-- Witness for C10 at a concrete body with a zero amount. -/
theorem c10_witness :
    createTransaction (fun _ => some 1)
        ⟨some TxType.expense, some (JsonVal.num 0), some "food", none, none⟩
        "id1" "2024-01-02" "now" [] =
      ([], CreateResult.err 400 "Missing required fields") :=
  c10_falsy_amount_rejected (fun _ => some 1)
    ⟨some TxType.expense, some (JsonVal.num 0), some "food", none, none⟩
    "id1" "2024-01-02" "now" [] TxType.expense (JsonVal.num 0) "food" rfl rfl rfl
    (by decide)
